import Mathlib

/-!
# Shallow embedding of `src/Simulation_gravity.py`

The physics core of the repository is a single Python file.  This file embeds
the part of that program the specification talks about:

* `pygame.math.Vector2` becomes the two-component real structure `Vec2`.
  Python floats are modelled as real numbers (the spec reasons in exact real
  arithmetic).
* The `Body` class becomes the structure `Body`.  Python's per-object identity
  (`id(self)`, used by `other is self`) is modelled by the explicit `id : ℕ`
  field, exactly as §9 of the design document describes it.
* Fallible operations are `Option`-valued, `none` marking the point where the
  Python program raises: `Vector2.normalize()` raises `ValueError` on a
  zero-length vector, `Vector2 / 0.0` raises `ZeroDivisionError`, and
  `Body.__init__` can raise `TypeError` (see `mkBody`).
* The in-place mutation of a `Body` by its methods becomes a function from the
  old body to the new body; the main-loop passes (which mutate the bodies of
  the global list one after the other) become functions from the body list to
  the new body list.  Within each pass a body's update reads only its own
  fields and the *positions, masses and identities* of the other bodies, none
  of which the pass itself changes, so mapping every body against the
  pre-pass list is an exact model of the sequential in-place loop.
-/

/-! ## Simulation parameters (lines 8–17 of the source) -/

def G : ℝ := 6.674e-2

def BASE_MASS : ℝ := 1e6

def DT : ℝ := 0.005

def TRAIL_LENGTH : ℕ := 100

def MIN_BODY_RADIUS : ℤ := 3

def MAX_BODY_RADIUS : ℤ := 15

def MASS_SCALING_POWER : ℝ := 0.33

def SOFTENING : ℝ := 50

def PREDICTION_STEPS : ℕ := 50

/-! ## `pygame.math.Vector2` -/

/-- A two-dimensional real vector, modelling `pygame.math.Vector2`. -/
structure Vec2 where
  x : ℝ
  y : ℝ

noncomputable instance : Add Vec2 := ⟨fun a b => ⟨a.x + b.x, a.y + b.y⟩⟩

noncomputable instance : Sub Vec2 := ⟨fun a b => ⟨a.x - b.x, a.y - b.y⟩⟩

noncomputable instance : Neg Vec2 := ⟨fun a => ⟨-a.x, -a.y⟩⟩

noncomputable instance : HMul Vec2 ℝ Vec2 := ⟨fun v c => ⟨v.x * c, v.y * c⟩⟩

noncomputable instance : HMul ℝ Vec2 Vec2 := ⟨fun c v => ⟨c * v.x, c * v.y⟩⟩

noncomputable instance : HDiv Vec2 ℝ Vec2 := ⟨fun v c => ⟨v.x / c, v.y / c⟩⟩

@[simp] theorem Vec2.add_x (a b : Vec2) : (a + b).x = a.x + b.x := rfl

@[simp] theorem Vec2.add_y (a b : Vec2) : (a + b).y = a.y + b.y := rfl

@[simp] theorem Vec2.sub_x (a b : Vec2) : (a - b).x = a.x - b.x := rfl

@[simp] theorem Vec2.sub_y (a b : Vec2) : (a - b).y = a.y - b.y := rfl

@[simp] theorem Vec2.neg_x (a : Vec2) : (-a).x = -a.x := rfl

@[simp] theorem Vec2.neg_y (a : Vec2) : (-a).y = -a.y := rfl

@[simp] theorem Vec2.mulr_x (v : Vec2) (c : ℝ) : (v * c).x = v.x * c := rfl

@[simp] theorem Vec2.mulr_y (v : Vec2) (c : ℝ) : (v * c).y = v.y * c := rfl

@[simp] theorem Vec2.rmul_x (c : ℝ) (v : Vec2) : (c * v).x = c * v.x := rfl

@[simp] theorem Vec2.rmul_y (c : ℝ) (v : Vec2) : (c * v).y = c * v.y := rfl

@[simp] theorem Vec2.div_x (v : Vec2) (c : ℝ) : (v / c).x = v.x / c := rfl

@[simp] theorem Vec2.div_y (v : Vec2) (c : ℝ) : (v / c).y = v.y / c := rfl

/-- `Vector2.length_squared()`. -/
def Vec2.length_squared (v : Vec2) : ℝ := v.x * v.x + v.y * v.y

/-- `Vector2.length()`. -/
noncomputable def Vec2.length (v : Vec2) : ℝ := Real.sqrt v.length_squared

open Classical in
/-- `Vector2.normalize()`: division of the vector by its length.  pygame
raises `ValueError` when the length is zero; that fault is the `none` case. -/
noncomputable def Vec2.normalize (v : Vec2) : Option Vec2 :=
  if v.length_squared = 0 then none else some (v / v.length)

open Classical in
/-- Scalar division `Vector2 / c` at a call site that is *not* protected by a
zero test in the source: Python raises `ZeroDivisionError` when `c == 0`,
which is the `none` case. -/
noncomputable def Vec2.divChecked (v : Vec2) (c : ℝ) : Option Vec2 :=
  if c = 0 then none else some (v / c)

/-! ## The `Body` class (state) -/

/-- The mutable state of `Body` (lines 113–126): every field assigned by
`__init__`. -/
structure Body where
  mass : ℝ
  position : Vec2
  velocity : Vec2
  force : Vec2
  force_prev : Vec2
  color : ℕ × ℕ × ℕ
  name : String
  trail : List Vec2
  predicted_trajectory : List Vec2
  radius : ℤ
  id : ℕ

open Classical in
/-- `Body.__init__(mass, pos_x, pos_y, vel_x, vel_y, color, name="")`.

Two statements of the constructor can raise, and both faults are modelled as
`none`, in source order:

* line 120, `self.name = name or f"Body {id(self)[-4:]}"`: when `name` is the
  empty string (the default) the right operand is evaluated, and
  `id(self)[-4:]` slices an `int`, raising
  `TypeError: 'int' object is not subscriptable`;
* line 124, `(mass / BASE_MASS)**MASS_SCALING_POWER`: a negative base with a
  fractional exponent yields a `complex` in Python 3, and `int(...)` of a
  complex on line 125 raises `TypeError`.

Otherwise the radius is the clamped, truncated power law of the source
(`int` truncation equals `⌊·⌋` here because the scaled radius is
nonnegative when `mass ≥ 0`). -/
noncomputable def mkBody (mass pos_x pos_y vel_x vel_y : ℝ) (color : ℕ × ℕ × ℕ)
    (name : String) (selfId : ℕ) : Option Body :=
  if name = "" then none
  else if mass < 0 then none
  else
    some
      { mass := mass
        position := ⟨pos_x, pos_y⟩
        velocity := ⟨vel_x, vel_y⟩
        force := ⟨0, 0⟩
        force_prev := ⟨0, 0⟩
        color := color
        name := name
        trail := []
        predicted_trajectory := []
        radius := max MIN_BODY_RADIUS (min MAX_BODY_RADIUS
          ⌊(mass / BASE_MASS) ^ MASS_SCALING_POWER *
            ((MAX_BODY_RADIUS : ℝ) - (MIN_BODY_RADIUS : ℝ)) + (MIN_BODY_RADIUS : ℝ)⌋)
        id := selfId }

/-! ## `Body.calculate_force` (lines 128–138) -/

open Classical in
/-- The contribution a single `other` body adds to `self.force` in one
iteration of the loop of `calculate_force`: zero when the iteration is
skipped (`other is self`, or the dead `dist_sq == 0` guard), otherwise
`r_vec.normalize() * force_mag`, faulting when the zero vector is
normalized. -/
noncomputable def Body.forceContrib (self other : Body) : Option Vec2 :=
  if other.id = self.id then some ⟨0, 0⟩
  else
    let r_vec := other.position - self.position
    let dist_sq := r_vec.length_squared + SOFTENING
    if dist_sq = 0 then some ⟨0, 0⟩
    else (r_vec.normalize).map (fun n => n * (G * self.mass * other.mass / dist_sq))

open Classical in
/-- The accumulation loop of `calculate_force`, starting from an accumulator
(`self.force` after `self.force.update(0, 0)` is the zero vector). -/
noncomputable def Body.forceFold (self : Body) : List Body → Vec2 → Option Vec2
  | [], acc => some acc
  | other :: rest, acc =>
    if other.id = self.id then self.forceFold rest acc
    else
      let r_vec := other.position - self.position
      let dist_sq := r_vec.length_squared + SOFTENING
      if dist_sq = 0 then self.forceFold rest acc
      else
        match r_vec.normalize with
        | none => none
        | some n => self.forceFold rest (acc + n * (G * self.mass * other.mass / dist_sq))

/-- `Body.calculate_force(other_bodies)`: save the old force into
`force_prev` (a value copy of `Vector2(force.x, force.y)`), reset the
accumulator to zero and run the pairwise loop. -/
noncomputable def Body.calculate_force (self : Body) (other_bodies : List Body) :
    Option Body :=
  (self.forceFold other_bodies ⟨0, 0⟩).map
    (fun f => { self with force_prev := self.force, force := f })

/-! ## The Verlet updates (lines 140–152) -/

open Classical in
/-- `Body.update_position_verlet`. -/
noncomputable def Body.update_position_verlet (self : Body) : Body :=
  if self.mass = 0 then self
  else
    let accel_prev := self.force_prev / self.mass
    { self with position := self.position + self.velocity * DT + ((0.5 : ℝ) * accel_prev) * DT ^ 2 }

open Classical in
/-- `Body.update_velocity_verlet`: the Verlet velocity correction, then the
trail append with pop-oldest when the capacity is exceeded. -/
noncomputable def Body.update_velocity_verlet (self : Body) : Body :=
  if self.mass = 0 then self
  else
    let accel_prev := self.force_prev / self.mass
    let accel_now := self.force / self.mass
    let trail' := self.trail ++ [self.position]
    { self with
        velocity := self.velocity + ((0.5 : ℝ) * (accel_prev + accel_now)) * DT
        trail := if trail'.length > TRAIL_LENGTH then trail'.tail else trail' }

/-! ## `Body.predict_trajectory` (lines 154–181) -/

/-- The local scratch state of `predict_trajectory`: the four `temp_*`
variables and the `predicted` output list. -/
structure PredState where
  temp_pos : Vec2
  temp_vel : Vec2
  temp_force : Vec2
  temp_force_prev : Vec2
  predicted : List Vec2

open Classical in
/-- The inner force loop of `predict_trajectory`, evaluated at the scratch
position `temp_pos` while reading the *live* positions of the other
bodies. -/
noncomputable def Body.predictForceFold (self : Body) (temp_pos : Vec2) :
    List Body → Vec2 → Option Vec2
  | [], acc => some acc
  | other :: rest, acc =>
    if other.id = self.id then self.predictForceFold temp_pos rest acc
    else
      let r_vec := other.position - temp_pos
      let dist_sq := r_vec.length_squared + SOFTENING
      if dist_sq = 0 then self.predictForceFold temp_pos rest acc
      else
        match r_vec.normalize with
        | none => none
        | some n => self.predictForceFold temp_pos rest (acc + n * (G * self.mass * other.mass / dist_sq))

/-- One iteration of the loop in `predict_trajectory`.  The divisions by
`self.mass` are unguarded in the source, so each one is `divChecked`:
a zero-mass target makes the very first statement of the iteration raise
`ZeroDivisionError`. -/
noncomputable def Body.predictStep (self : Body) (bodies : List Body)
    (st : PredState) : Option PredState :=
  (st.temp_force_prev.divChecked self.mass).bind fun accel_prev =>
    let temp_pos := st.temp_pos + st.temp_vel * DT + ((0.5 : ℝ) * accel_prev) * DT ^ 2
    let temp_force_prev := st.temp_force
    (self.predictForceFold temp_pos bodies ⟨0, 0⟩).bind fun temp_force =>
      (temp_force_prev.divChecked self.mass).bind fun accel_prev2 =>
        (temp_force.divChecked self.mass).bind fun accel_now =>
          some
            { temp_pos := temp_pos
              temp_vel := st.temp_vel + ((0.5 : ℝ) * (accel_prev2 + accel_now)) * DT
              temp_force := temp_force
              temp_force_prev := temp_force_prev
              predicted := st.predicted ++ [temp_pos] }

/-- The `for _ in range(steps)` loop. -/
noncomputable def Body.predictLoop (self : Body) (bodies : List Body) :
    ℕ → PredState → Option PredState
  | 0, st => some st
  | n + 1, st => (self.predictStep bodies st).bind (self.predictLoop bodies n)

/-- `Body.predict_trajectory(bodies, steps)`.  The scratch state starts from
value copies of the body's kinematic fields; only the scratch state and the
output list are ever written, so the function's only product is the returned
path (or a fault). -/
noncomputable def Body.predict_trajectory (self : Body) (bodies : List Body)
    (steps : ℕ) : Option (List Vec2) :=
  (self.predictLoop bodies steps
      ⟨self.position, self.velocity, self.force, self.force_prev, []⟩).map
    PredState.predicted

/-! ## The main-loop tick (lines 334–345) -/

/-- The force pass `for body in bodies: body.calculate_force(bodies)`.
Every body is recomputed against the pre-pass list: the pass only writes
`force`/`force_prev` and only reads positions, masses and identities, so
this models the sequential in-place loop exactly. -/
noncomputable def forcePassAux (all : List Body) : List Body → Option (List Body)
  | [] => some []
  | b :: rest => (b.calculate_force all).bind fun b' =>
      (forcePassAux all rest).map (fun l => b' :: l)

/-- The first and third pass of a tick. -/
noncomputable def forcePass (bodies : List Body) : Option (List Body) :=
  forcePassAux bodies bodies

/-- The second pass: `for body in bodies: body.update_position_verlet()`
(each update reads only the body's own fields). -/
noncomputable def posPass (bodies : List Body) : List Body :=
  bodies.map Body.update_position_verlet

/-- The fourth pass: `for body in bodies: body.update_velocity_verlet()`. -/
noncomputable def velPass (bodies : List Body) : List Body :=
  bodies.map Body.update_velocity_verlet

/-- One tick of the live simulation: force pass, position pass, force pass,
velocity pass (lines 334–341). -/
noncomputable def step (bodies : List Body) : Option (List Body) :=
  (forcePass bodies).bind fun b1 =>
    (forcePass (posPass b1)).bind fun b3 =>
      some (velPass b3)

/-- `n` consecutive ticks. -/
noncomputable def stepN : ℕ → List Body → Option (List Body)
  | 0, bodies => some bodies
  | n + 1, bodies => (step bodies).bind (stepN n)

/-- The prediction pass (lines 343–345):
`body.predicted_trajectory = body.predict_trajectory(bodies, PREDICTION_STEPS)`
for every body.  Prediction reads only positions, masses and identities of
the other bodies and writes only `predicted_trajectory`, so mapping against
the pre-pass list models the sequential loop exactly. -/
noncomputable def predPassAux (all : List Body) : List Body → Option (List Body)
  | [] => some []
  | b :: rest => (b.predict_trajectory all PREDICTION_STEPS).bind fun p =>
      (predPassAux all rest).map (fun l => { b with predicted_trajectory := p } :: l)

/-- The full prediction pass over the body list. -/
noncomputable def predPass (bodies : List Body) : Option (List Body) :=
  predPassAux bodies bodies

/-! ## Basic helper lemmas -/

theorem Vec2.ext_xy {a b : Vec2} (hx : a.x = b.x) (hy : a.y = b.y) : a = b := by
  cases a; cases b; cases hx; cases hy; rfl

theorem Vec2.length_squared_eq_zero_iff (v : Vec2) :
    v.length_squared = 0 ↔ v.x = 0 ∧ v.y = 0 := by
  unfold Vec2.length_squared
  constructor
  · intro h
    have hx := mul_self_nonneg v.x
    have hy := mul_self_nonneg v.y
    constructor
    · nlinarith
    · nlinarith
  · rintro ⟨hx, hy⟩
    rw [hx, hy]; ring

/-- A plain-data body used as a concrete test input: mass `m`, position `p`,
identity `i`, everything else at its post-`__init__` default. -/
noncomputable def bodyAt (m : ℝ) (p : Vec2) (i : ℕ) (nm : String) : Body :=
  { mass := m
    position := p
    velocity := ⟨0, 0⟩
    force := ⟨0, 0⟩
    force_prev := ⟨0, 0⟩
    color := (255, 255, 255)
    name := nm
    trail := []
    predicted_trajectory := []
    radius := 3
    id := i }

/-! ## Claims C1, C2, C9, C10 -/

/-- C1: the claim says that when another body sits at exactly the target's
position, `calculate_force` completes without a fault and that pair
contributes zero force.  In fact the `dist_sq == 0` guard tests the
*softened* distance (always `≥ SOFTENING = 50`), so it never fires, and the
zero-length separation vector reaches `r_vec.normalize()`, which raises
`ValueError` — the call faults.  This theorem evaluates the code at the
failing input: two distinct bodies at the same position. -/
theorem C1_coincident_pair_faults :
    (bodyAt 1 ⟨0, 0⟩ 0 "A").calculate_force
      [bodyAt 1 ⟨0, 0⟩ 0 "A", bodyAt 1 ⟨0, 0⟩ 1 "B"] = none := by
  norm_num [Body.calculate_force, Body.forceFold, bodyAt, Vec2.normalize,
    Vec2.length_squared, SOFTENING]

/-- C2: the claim says `predict_trajectory` special-cases a zero-mass body
and never faults with a division by mass.  In fact the very first statement
of each loop iteration, `accel_prev = temp_force_prev / self.mass`, divides
by `self.mass` unguarded (unlike the Verlet updates, which return early on
zero mass), so for any positive step count a zero-mass target raises
`ZeroDivisionError`.  This theorem evaluates the code at the failing input:
a zero-mass body and one prediction step. -/
theorem C2_zero_mass_prediction_faults :
    (bodyAt 0 ⟨0, 0⟩ 0 "A").predict_trajectory [] 1 = none := by
  norm_num [Body.predict_trajectory, Body.predictLoop, Body.predictStep,
    Vec2.divChecked, bodyAt]

/-- C9: the claim says invalid configuration (negative mass, non-positive
`dt`, negative softening) is rejected with a descriptive failure.  The code
performs no validation at all: `DT` and `SOFTENING` are unchecked module
constants, and a negative mass merely trips an incidental
`TypeError` — `(mass / BASE_MASS)**0.33` produces a `complex` for a negative
base and `int(...)` of it raises — far from a descriptive rejection.  This
theorem evaluates the constructor at the failing input, showing where the
construction actually dies. -/
theorem C9_negative_mass_construction_fault :
    mkBody (-1e6) 0 0 0 0 (255, 255, 255) "X" 0 = none := by
  norm_num [mkBody]

/-- C10: the claim says constructing a `Body` with the name omitted succeeds
and assigns a generated default display name.  In fact the default branch
`f"Body {id(self)[-4:]}"` slices an `int` (`id(self)` is an integer), which
raises `TypeError: 'int' object is not subscriptable`, so every construction
that omits the name (or passes the empty string) faults.  This theorem
evaluates the constructor at the failing input. -/
theorem C10_default_name_construction_fault :
    mkBody 1 0 0 0 0 (255, 255, 255) "" 0 = none := by
  simp [mkBody]

/-! ## Claim C8 -/

theorem Vec2.add_zero_vec (a : Vec2) : a + (⟨0, 0⟩ : Vec2) = a :=
  Vec2.ext_xy (by simp) (by simp)

/-- `forceContrib` is exactly the per-iteration accumulation step of the
loop in `calculate_force`: folding is binding the pair contribution and
adding it to the accumulator. -/
theorem Body.forceFold_cons (self other : Body) (rest : List Body) (acc : Vec2) :
    self.forceFold (other :: rest) acc =
      (self.forceContrib other).bind (fun c => self.forceFold rest (acc + c)) := by
  simp only [Body.forceFold, Body.forceContrib]
  by_cases hid : other.id = self.id
  · rw [if_pos hid, if_pos hid, Option.some_bind, Vec2.add_zero_vec]
  · rw [if_neg hid, if_neg hid]
    by_cases hd : (other.position - self.position).length_squared + SOFTENING = 0
    · rw [if_pos hd, if_pos hd, Option.some_bind, Vec2.add_zero_vec]
    · rw [if_neg hd, if_neg hd]
      cases hn : (other.position - self.position).normalize with
      | none => simp
      | some n => simp

theorem Vec2.length_squared_sub_comm (a b : Vec2) :
    (a - b).length_squared = (b - a).length_squared := by
  unfold Vec2.length_squared
  simp only [Vec2.sub_x, Vec2.sub_y]
  ring

/-- C8: Newton's third law at the level of a single pair, in exact real
arithmetic: for distinct bodies `A` and `B`, the contribution
`calculate_force` accumulates on `A` due to `B` is the exact negation of the
contribution accumulated on `B` due to `A` (and when either side faults on a
zero-length separation, so does the other). -/
theorem C8_newtons_third_law (A B : Body) (h : A.id ≠ B.id) :
    A.forceContrib B = (B.forceContrib A).map (fun v => -v) := by
  have h1 : ¬ B.id = A.id := Ne.symm h
  have h2 : ¬ A.id = B.id := h
  have hls := Vec2.length_squared_sub_comm A.position B.position
  simp only [Body.forceContrib]
  rw [if_neg h1, if_neg h2]
  by_cases hd : (B.position - A.position).length_squared + SOFTENING = 0
  · rw [if_pos hd, if_pos (by rw [hls]; exact hd)]
    simp only [Option.map_some']
    exact congrArg some (Vec2.ext_xy (by simp) (by simp))
  · rw [if_neg hd, if_neg (by rw [hls]; exact hd)]
    unfold Vec2.normalize
    by_cases hz : (B.position - A.position).length_squared = 0
    · rw [if_pos hz, if_pos (by rw [hls]; exact hz)]
      simp
    · rw [if_neg hz, if_neg (by rw [hls]; exact hz)]
      have hlen : (A.position - B.position).length = (B.position - A.position).length := by
        unfold Vec2.length; rw [hls]
      simp only [Option.map_some']
      refine congrArg some (Vec2.ext_xy ?_ ?_)
      · simp only [Vec2.mulr_x, Vec2.div_x, Vec2.neg_x, Vec2.sub_x, hls, hlen]
        ring
      · simp only [Vec2.mulr_y, Vec2.div_y, Vec2.neg_y, Vec2.sub_y, hls, hlen]
        ring

/-- Witness for C8 at a concrete input: two distinct bodies one unit apart. -/
theorem C8_newtons_third_law_witness :
    (bodyAt 1 ⟨0, 0⟩ 0 "A").forceContrib (bodyAt 2 ⟨1, 0⟩ 1 "B") =
      ((bodyAt 2 ⟨1, 0⟩ 1 "B").forceContrib (bodyAt 1 ⟨0, 0⟩ 0 "A")).map
        (fun v => -v) :=
  C8_newtons_third_law _ _ (by simp [bodyAt])

/-! ## Structural lemmas about the passes -/

/-- `calculate_force` writes only `force` and `force_prev`: every other field
of the updated body is the original one, and the new `force_prev` is the old
`force`. -/
theorem Body.calculate_force_some_fields {self b' : Body} {others : List Body}
    (h : self.calculate_force others = some b') :
    b'.mass = self.mass ∧ b'.position = self.position ∧ b'.velocity = self.velocity ∧
      b'.trail = self.trail ∧ b'.id = self.id ∧ b'.force_prev = self.force ∧
      b'.predicted_trajectory = self.predicted_trajectory := by
  unfold Body.calculate_force at h
  obtain ⟨f, -, rfl⟩ := Option.map_eq_some'.mp h
  exact ⟨rfl, rfl, rfl, rfl, rfl, rfl, rfl⟩

/-- The `force` written by a successful `calculate_force` is the value of the
accumulation loop. -/
theorem Body.calculate_force_some_force {self b' : Body} {others : List Body}
    (h : self.calculate_force others = some b') :
    self.forceFold others ⟨0, 0⟩ = some b'.force := by
  unfold Body.calculate_force at h
  obtain ⟨f, hf, rfl⟩ := Option.map_eq_some'.mp h
  exact hf

/-- A successful force pass relates input and output bodies pointwise by a
successful `calculate_force` against the pass's snapshot list. -/
theorem forcePassAux_forall₂ {all bs bs' : List Body}
    (h : forcePassAux all bs = some bs') :
    List.Forall₂ (fun b b' => b.calculate_force all = some b') bs bs' := by
  induction bs generalizing bs' with
  | nil =>
    unfold forcePassAux at h
    cases h
    exact List.Forall₂.nil
  | cons b rest ih =>
    unfold forcePassAux at h
    obtain ⟨b', hb', h2⟩ := Option.bind_eq_some.mp h
    obtain ⟨rest', hrest', rfl⟩ := Option.map_eq_some'.mp h2
    exact List.Forall₂.cons hb' (ih hrest')

/-- Pointwise access to a `Forall₂` relation. -/
theorem forall₂_get {α β : Type _} {R : α → β → Prop} :
    ∀ {l : List α} {l' : List β}, List.Forall₂ R l l' →
      ∀ i (h1 : i < l.length) (h2 : i < l'.length),
        R (l.get ⟨i, h1⟩) (l'.get ⟨i, h2⟩) := by
  intro l l' h
  induction h with
  | nil => intro i h1 _; exact absurd h1 (by simp)
  | cons hab htl ih =>
    intro i h1 h2
    cases i with
    | zero => exact hab
    | succ j => exact ih j (by simpa using h1) (by simpa using h2)

/-- `update_position_verlet` writes only `position`. -/
theorem Body.update_position_verlet_fields (b : Body) :
    b.update_position_verlet.mass = b.mass ∧
      b.update_position_verlet.velocity = b.velocity ∧
      b.update_position_verlet.force = b.force ∧
      b.update_position_verlet.force_prev = b.force_prev ∧
      b.update_position_verlet.trail = b.trail ∧
      b.update_position_verlet.id = b.id := by
  unfold Body.update_position_verlet
  by_cases h : b.mass = 0
  · rw [if_pos h]; exact ⟨rfl, rfl, rfl, rfl, rfl, rfl⟩
  · rw [if_neg h]; exact ⟨rfl, rfl, rfl, rfl, rfl, rfl⟩

/-- `update_velocity_verlet` writes only `velocity` and `trail`. -/
theorem Body.update_velocity_verlet_fields (b : Body) :
    b.update_velocity_verlet.mass = b.mass ∧
      b.update_velocity_verlet.position = b.position ∧
      b.update_velocity_verlet.force = b.force ∧
      b.update_velocity_verlet.force_prev = b.force_prev ∧
      b.update_velocity_verlet.id = b.id := by
  unfold Body.update_velocity_verlet
  by_cases h : b.mass = 0
  · rw [if_pos h]; exact ⟨rfl, rfl, rfl, rfl, rfl⟩
  · rw [if_neg h]; exact ⟨rfl, rfl, rfl, rfl, rfl⟩

/-- The early return of `update_position_verlet` on a zero-mass body. -/
theorem Body.update_position_verlet_zero_mass {b : Body} (h : b.mass = 0) :
    b.update_position_verlet = b := by
  unfold Body.update_position_verlet
  rw [if_pos h]

/-- The early return of `update_velocity_verlet` on a zero-mass body. -/
theorem Body.update_velocity_verlet_zero_mass {b : Body} (h : b.mass = 0) :
    b.update_velocity_verlet = b := by
  unfold Body.update_velocity_verlet
  rw [if_pos h]

/-- A successful tick preserves the list length and every body's mass, and
leaves the position and velocity of a zero-mass body untouched. -/
theorem step_mass_pos_vel {bs bs' : List Body} (h : step bs = some bs') :
    bs'.length = bs.length ∧
      ∀ i (h1 : i < bs.length) (h2 : i < bs'.length),
        (bs'.get ⟨i, h2⟩).mass = (bs.get ⟨i, h1⟩).mass ∧
          ((bs.get ⟨i, h1⟩).mass = 0 →
            (bs'.get ⟨i, h2⟩).position = (bs.get ⟨i, h1⟩).position ∧
              (bs'.get ⟨i, h2⟩).velocity = (bs.get ⟨i, h1⟩).velocity) := by
  unfold step at h
  obtain ⟨b1, hb1, h2⟩ := Option.bind_eq_some.mp h
  obtain ⟨b3, hb3, h4⟩ := Option.bind_eq_some.mp h2
  have hbs' : bs' = velPass b3 := (Option.some.inj h4).symm
  subst hbs'
  have hf1 := forcePassAux_forall₂ hb1
  have hf3 := forcePassAux_forall₂ hb3
  have hlen1 : b1.length = bs.length := hf1.length_eq.symm
  have hlen3 : b3.length = b1.length := by
    have := hf3.length_eq
    simpa [posPass] using this.symm
  have hlenv : (velPass b3).length = b3.length := by simp [velPass]
  refine ⟨by omega, ?_⟩
  intro i h1 h2
  have hi1 : i < b1.length := by omega
  have hip : i < (posPass b1).length := by simp [posPass]; omega
  have hi3 : i < b3.length := by omega
  have g1 := forall₂_get hf1 i h1 hi1
  have g3 := forall₂_get hf3 i hip hi3
  have e1 := Body.calculate_force_some_fields g1
  have e3 := Body.calculate_force_some_fields g3
  have hpget : (posPass b1).get ⟨i, hip⟩ = (b1.get ⟨i, hi1⟩).update_position_verlet := by
    simp [posPass]
  have hvget : (velPass b3).get ⟨i, h2⟩ = (b3.get ⟨i, hi3⟩).update_velocity_verlet := by
    simp [velPass]
  have hup := Body.update_position_verlet_fields (b1.get ⟨i, hi1⟩)
  have huv := Body.update_velocity_verlet_fields (b3.get ⟨i, hi3⟩)
  rw [hpget] at e3 g3
  rw [hvget]
  have hmass : (b3.get ⟨i, hi3⟩).mass = (bs.get ⟨i, h1⟩).mass := by
    rw [e3.1, hup.1, e1.1]
  refine ⟨by rw [huv.1, hmass], ?_⟩
  intro hm0
  have hm1 : (b1.get ⟨i, hi1⟩).mass = 0 := by rw [e1.1]; exact hm0
  have hm3 : (b3.get ⟨i, hi3⟩).mass = 0 := by rw [hmass]; exact hm0
  have hzp := Body.update_position_verlet_zero_mass hm1
  constructor
  · rw [huv.2.1, e3.2.1, hzp, e1.2.1]
  · rw [Body.update_velocity_verlet_zero_mass hm3, e3.2.2.1, hup.2.1, e1.2.2.1]

/-- Iterated form of `step_mass_pos_vel` over any number of ticks. -/
theorem stepN_mass_pos_vel {n : ℕ} {bs bs' : List Body} (h : stepN n bs = some bs') :
    bs'.length = bs.length ∧
      ∀ i (h1 : i < bs.length) (h2 : i < bs'.length),
        (bs'.get ⟨i, h2⟩).mass = (bs.get ⟨i, h1⟩).mass ∧
          ((bs.get ⟨i, h1⟩).mass = 0 →
            (bs'.get ⟨i, h2⟩).position = (bs.get ⟨i, h1⟩).position ∧
              (bs'.get ⟨i, h2⟩).velocity = (bs.get ⟨i, h1⟩).velocity) := by
  induction n generalizing bs with
  | zero =>
    unfold stepN at h
    cases h
    exact ⟨rfl, fun i h1 h2 => ⟨rfl, fun _ => ⟨rfl, rfl⟩⟩⟩
  | succ m ih =>
    unfold stepN at h
    obtain ⟨mid, hmid, hrest⟩ := Option.bind_eq_some.mp h
    obtain ⟨hl1, hp1⟩ := step_mass_pos_vel hmid
    obtain ⟨hl2, hp2⟩ := ih hrest
    refine ⟨by omega, ?_⟩
    intro i h1 h2
    have him : i < mid.length := by omega
    obtain ⟨hm1, hz1⟩ := hp1 i h1 him
    obtain ⟨hm2, hz2⟩ := hp2 i him h2
    refine ⟨by rw [hm2, hm1], ?_⟩
    intro h0
    have hm0 : (mid.get ⟨i, him⟩).mass = 0 := by rw [hm1]; exact h0
    obtain ⟨hpa, hva⟩ := hz1 h0
    obtain ⟨hpb, hvb⟩ := hz2 hm0
    exact ⟨by rw [hpb, hpa], by rw [hvb, hva]⟩

/-! ## Claim C7 -/

/-- C7: a zero-mass body is immovable.  Both Verlet updates return early on
`mass == 0` (before touching any field), so a zero-mass body is left exactly
unchanged by the position-update and the velocity-update phase, whatever
forces have been accumulated on it; consequently its position and velocity
survive any number of complete ticks of the live simulation unchanged. -/
theorem C7_zero_mass_immovable :
    (∀ b : Body, b.mass = 0 →
        b.update_position_verlet = b ∧ b.update_velocity_verlet = b) ∧
      ∀ (n : ℕ) (bs bs' : List Body), stepN n bs = some bs' →
        bs'.length = bs.length ∧
          ∀ i (h1 : i < bs.length) (h2 : i < bs'.length),
            (bs.get ⟨i, h1⟩).mass = 0 →
              (bs'.get ⟨i, h2⟩).position = (bs.get ⟨i, h1⟩).position ∧
                (bs'.get ⟨i, h2⟩).velocity = (bs.get ⟨i, h1⟩).velocity := by
  constructor
  · intro b hb
    exact ⟨Body.update_position_verlet_zero_mass hb,
      Body.update_velocity_verlet_zero_mass hb⟩
  · intro n bs bs' h
    obtain ⟨hl, hp⟩ := stepN_mass_pos_vel h
    exact ⟨hl, fun i h1 h2 h0 => (hp i h1 h2).2 h0⟩

/-- Witness for C7: a concrete zero-mass body, alone, across one concrete
tick (which succeeds and leaves it untouched). -/
theorem C7_zero_mass_immovable_witness :
    (bodyAt 0 ⟨0, 0⟩ 3 "Z").update_position_verlet = bodyAt 0 ⟨0, 0⟩ 3 "Z" ∧
      (([bodyAt 0 ⟨0, 0⟩ 3 "Z"] : List Body).get ⟨0, by simp⟩).position =
        (([bodyAt 0 ⟨0, 0⟩ 3 "Z"] : List Body).get ⟨0, by simp⟩).position := by
  have hstep : stepN 1 [bodyAt 0 ⟨0, 0⟩ 3 "Z"] = some [bodyAt 0 ⟨0, 0⟩ 3 "Z"] := by
    simp [stepN, step, forcePass, forcePassAux, Body.calculate_force, Body.forceFold,
      posPass, velPass, Body.update_position_verlet, Body.update_velocity_verlet, bodyAt]
  exact ⟨(C7_zero_mass_immovable.1 _ rfl).1,
    ((C7_zero_mass_immovable.2 1 _ _ hstep).2 0 (by simp) (by simp) rfl).1⟩

/-! ## Claim C5 -/

/-- A successful prediction pass relates input and output bodies pointwise:
the output body is the input body with only `predicted_trajectory` replaced
by the freshly computed path. -/
theorem predPassAux_forall₂ {all bs bs' : List Body}
    (h : predPassAux all bs = some bs') :
    List.Forall₂
      (fun b b' => ∃ p, b.predict_trajectory all PREDICTION_STEPS = some p ∧
        b' = { b with predicted_trajectory := p }) bs bs' := by
  induction bs generalizing bs' with
  | nil =>
    unfold predPassAux at h
    cases h
    exact List.Forall₂.nil
  | cons b rest ih =>
    unfold predPassAux at h
    obtain ⟨p, hp, h2⟩ := Option.bind_eq_some.mp h
    obtain ⟨rest', hrest', rfl⟩ := Option.map_eq_some'.mp h2
    exact List.Forall₂.cons ⟨p, hp, rfl⟩ (ih hrest')

/-- C5: the prediction pass is non-destructive.  `predict_trajectory` writes
only its four `temp_*` locals and the output list, and the assignment in the
main loop replaces only `predicted_trajectory`; the position, velocity,
force and previous force of the target and of every other body are exactly
unchanged across the pass. -/
theorem C5_prediction_nondestructive (bs bs' : List Body)
    (h : predPass bs = some bs') :
    bs'.length = bs.length ∧
      ∀ i (h1 : i < bs.length) (h2 : i < bs'.length),
        (bs'.get ⟨i, h2⟩).position = (bs.get ⟨i, h1⟩).position ∧
          (bs'.get ⟨i, h2⟩).velocity = (bs.get ⟨i, h1⟩).velocity ∧
          (bs'.get ⟨i, h2⟩).force = (bs.get ⟨i, h1⟩).force ∧
          (bs'.get ⟨i, h2⟩).force_prev = (bs.get ⟨i, h1⟩).force_prev := by
  have hf := predPassAux_forall₂ h
  refine ⟨hf.length_eq.symm, ?_⟩
  intro i h1 h2
  obtain ⟨p, -, hb'⟩ := forall₂_get hf i h1 h2
  rw [hb']
  exact ⟨rfl, rfl, rfl, rfl⟩

/-- In the scratch loop of `predict_trajectory`, an isolated nonzero-mass
body with zero scratch velocity and zero scratch forces stays put: every
iteration appends the same position. -/
theorem predictLoop_isolated_static (b : Body) (hm : ¬ b.mass = 0) (p : Vec2) :
    ∀ (n : ℕ) (acc : List Vec2),
      b.predictLoop [b] n ⟨p, ⟨0, 0⟩, ⟨0, 0⟩, ⟨0, 0⟩, acc⟩ =
        some ⟨p, ⟨0, 0⟩, ⟨0, 0⟩, ⟨0, 0⟩, acc ++ List.replicate n p⟩ := by
  have hdiv : Vec2.divChecked ⟨0, 0⟩ b.mass = some ⟨0, 0⟩ := by
    unfold Vec2.divChecked
    rw [if_neg hm]
    exact congrArg some (Vec2.ext_xy (by simp) (by simp))
  have hpos : ∀ q : Vec2, q + (⟨0, 0⟩ : Vec2) * DT + ((0.5 : ℝ) * (⟨0, 0⟩ : Vec2)) * DT ^ 2 = q :=
    fun q => Vec2.ext_xy (by simp) (by simp)
  have hvel : (⟨0, 0⟩ : Vec2) + ((0.5 : ℝ) * ((⟨0, 0⟩ : Vec2) + ⟨0, 0⟩)) * DT = ⟨0, 0⟩ :=
    Vec2.ext_xy (by simp) (by simp)
  have hfold : ∀ q : Vec2, b.predictForceFold q [b] ⟨0, 0⟩ = some ⟨0, 0⟩ := by
    intro q
    simp [Body.predictForceFold]
  intro n
  induction n with
  | zero => intro acc; simp [Body.predictLoop]
  | succ m ih =>
    intro acc
    unfold Body.predictLoop Body.predictStep
    rw [hdiv]
    simp only [Option.some_bind]
    rw [hpos, hfold]
    simp only [Option.some_bind]
    rw [hdiv]
    simp only [Option.some_bind]
    rw [hvel, ih]
    simp [List.replicate_succ, List.append_assoc]

/-- Witness for C5: a concrete prediction pass over a single unit-mass body
at rest, which succeeds and leaves the body's kinematic state unchanged. -/
theorem C5_prediction_nondestructive_witness :
    (([{ bodyAt 1 ⟨3, 4⟩ 7 "W" with
            predicted_trajectory := List.replicate PREDICTION_STEPS (⟨3, 4⟩ : Vec2) }] :
          List Body).get ⟨0, by simp⟩).position =
      (([bodyAt 1 ⟨3, 4⟩ 7 "W"] : List Body).get ⟨0, by simp⟩).position := by
  have hpred : (bodyAt 1 ⟨3, 4⟩ 7 "W").predict_trajectory
      [bodyAt 1 ⟨3, 4⟩ 7 "W"] PREDICTION_STEPS =
      some (List.replicate PREDICTION_STEPS (⟨3, 4⟩ : Vec2)) := by
    unfold Body.predict_trajectory
    rw [show (bodyAt 1 ⟨3, 4⟩ 7 "W").position = ⟨3, 4⟩ from rfl,
      show (bodyAt 1 ⟨3, 4⟩ 7 "W").velocity = ⟨0, 0⟩ from rfl,
      show (bodyAt 1 ⟨3, 4⟩ 7 "W").force = ⟨0, 0⟩ from rfl,
      show (bodyAt 1 ⟨3, 4⟩ 7 "W").force_prev = ⟨0, 0⟩ from rfl,
      predictLoop_isolated_static _ (by norm_num [bodyAt]) _ _ _]
    simp
  have hpp : predPass [bodyAt 1 ⟨3, 4⟩ 7 "W"] =
      some [{ bodyAt 1 ⟨3, 4⟩ 7 "W" with
        predicted_trajectory := List.replicate PREDICTION_STEPS (⟨3, 4⟩ : Vec2) }] := by
    unfold predPass predPassAux
    rw [hpred]
    simp [predPassAux]
  exact ((C5_prediction_nondestructive _ _ hpp).2 0 (by simp) (by simp)).1

/-! ## A concrete drifting body: closed form of the tick -/

/-- The trail of the drifting test body after `n` ticks: tick `j` appends
position `(j·DT, 0)`, and the loop keeps at most the last `TRAIL_LENGTH`
entries. -/
noncomputable def driftTrail (n : ℕ) : List Vec2 :=
  ((List.range n).map (fun j : ℕ => (⟨((j : ℝ) + 1) * DT, 0⟩ : Vec2))).drop
    (n - TRAIL_LENGTH)

/-- The drifting test body after `n` ticks: unit mass, unit velocity along
x, no forces (it is alone), position `(n·DT, 0)`. -/
noncomputable def driftBody (n : ℕ) : Body :=
  { mass := 1
    position := ⟨(n : ℝ) * DT, 0⟩
    velocity := ⟨1, 0⟩
    force := ⟨0, 0⟩
    force_prev := ⟨0, 0⟩
    color := (255, 255, 255)
    name := "D"
    trail := driftTrail n
    predicted_trajectory := []
    radius := 3
    id := 0 }

/-- The drifting body in the middle of tick `n + 1`, after the position
pass. -/
noncomputable def driftMid (n : ℕ) : Body :=
  { driftBody n with position := ⟨((n : ℝ) + 1) * DT, 0⟩ }

/-- For a body that is alone in the list, `calculate_force` only rewrites
the two force fields; with both already zero it is the identity. -/
theorem Body.calculate_force_self_only (b : Body) (hf : b.force = ⟨0, 0⟩)
    (hfp : b.force_prev = ⟨0, 0⟩) : b.calculate_force [b] = some b := by
  unfold Body.calculate_force
  have hfold : b.forceFold [b] ⟨0, 0⟩ = some ⟨0, 0⟩ := by simp [Body.forceFold]
  rw [hfold]
  cases b with
  | mk mass position velocity force force_prev color name trail pred radius id =>
    simp only at hf hfp
    subst hf
    subst hfp
    rfl

theorem drift_forcePass (n : ℕ) : forcePass [driftBody n] = some [driftBody n] := by
  unfold forcePass forcePassAux
  rw [Body.calculate_force_self_only _ rfl rfl]
  simp [forcePassAux]

theorem drift_forcePass_mid (n : ℕ) :
    forcePass [driftMid n] = some [driftMid n] := by
  unfold forcePass forcePassAux
  rw [Body.calculate_force_self_only _ rfl rfl]
  simp [forcePassAux]

theorem drift_posPass (n : ℕ) : posPass [driftBody n] = [driftMid n] := by
  unfold posPass
  simp only [List.map_cons, List.map_nil]
  unfold Body.update_position_verlet
  rw [if_neg (by norm_num [driftBody])]
  refine congrArg (fun b => [b]) ?_
  simp [driftBody, driftMid, Body.mk.injEq]
  exact Vec2.ext_xy (by simp; ring) (by simp)

theorem driftTrail_length (n : ℕ) :
    (driftTrail n).length = n - (n - TRAIL_LENGTH) := by
  unfold driftTrail
  simp

/-- One append-and-evict round of the trail update, in closed form. -/
theorem driftTrail_step (n : ℕ) :
    (if (driftTrail n ++ [(⟨((n : ℝ) + 1) * DT, 0⟩ : Vec2)]).length > TRAIL_LENGTH
        then (driftTrail n ++ [(⟨((n : ℝ) + 1) * DT, 0⟩ : Vec2)]).tail
        else driftTrail n ++ [(⟨((n : ℝ) + 1) * DT, 0⟩ : Vec2)]) = driftTrail (n + 1) := by
  have hT : TRAIL_LENGTH = 100 := rfl
  have hlen := driftTrail_length n
  by_cases hn : n < TRAIL_LENGTH
  · rw [if_neg (by simp [hlen]; omega)]
    unfold driftTrail
    rw [List.range_succ, List.map_append]
    rw [Nat.sub_eq_zero_of_le (by omega), Nat.sub_eq_zero_of_le (by omega)]
    simp
  · push_neg at hn
    rw [if_pos (by simp [hlen]; omega)]
    have hne : driftTrail n ≠ [] := by
      rw [← List.length_pos_iff_ne_nil, hlen]
      omega
    obtain ⟨a, t, hat⟩ := List.exists_cons_of_ne_nil hne
    have htail : t = ((List.range n).map
        (fun j : ℕ => (⟨((j : ℝ) + 1) * DT, 0⟩ : Vec2))).drop (n - TRAIL_LENGTH + 1) := by
      have := congrArg List.tail hat
      simp at this
      rw [← this]
      unfold driftTrail
      rw [List.tail_drop]
    rw [hat]
    simp only [List.cons_append, List.tail_cons]
    rw [htail]
    unfold driftTrail
    rw [List.range_succ, List.map_append,
      List.drop_append_of_le_length (by simp; omega)]
    have harith : n + 1 - TRAIL_LENGTH = n - TRAIL_LENGTH + 1 := by omega
    rw [harith]
    simp

theorem drift_velPass (n : ℕ) : velPass [driftMid n] = [driftBody (n + 1)] := by
  unfold velPass
  simp only [List.map_cons, List.map_nil]
  unfold Body.update_velocity_verlet
  rw [if_neg (by norm_num [driftMid, driftBody])]
  refine congrArg (fun b => [b]) ?_
  dsimp only
  have hv : (driftMid n).velocity +
      ((0.5 : ℝ) * ((driftMid n).force_prev / (driftMid n).mass +
        (driftMid n).force / (driftMid n).mass)) * DT = ⟨1, 0⟩ :=
    Vec2.ext_xy (by simp [driftMid, driftBody]) (by simp [driftMid, driftBody])
  rw [hv]
  have ht : (if ((driftMid n).trail ++ [(driftMid n).position]).length > TRAIL_LENGTH
      then ((driftMid n).trail ++ [(driftMid n).position]).tail
      else (driftMid n).trail ++ [(driftMid n).position]) = driftTrail (n + 1) :=
    driftTrail_step n
  rw [ht]
  simp [driftMid, driftBody, Body.mk.injEq]

theorem drift_step (n : ℕ) : step [driftBody n] = some [driftBody (n + 1)] := by
  unfold step
  rw [drift_forcePass, Option.some_bind, drift_posPass, drift_forcePass_mid,
    Option.some_bind, drift_velPass]

theorem drift_stepN : ∀ n k : ℕ, stepN n [driftBody k] = some [driftBody (k + n)] := by
  intro n
  induction n with
  | zero => intro k; simp [stepN]
  | succ m ih =>
    intro k
    unfold stepN
    rw [drift_step, Option.some_bind, ih (k + 1)]
    rw [Nat.add_assoc, Nat.add_comm 1 m]

/-! ## Claim C6 -/

/-- The append-then-evict update keeps the trail within its capacity. -/
theorem Body.update_velocity_verlet_trail_le (b : Body)
    (h : b.trail.length ≤ TRAIL_LENGTH) :
    b.update_velocity_verlet.trail.length ≤ TRAIL_LENGTH := by
  unfold Body.update_velocity_verlet
  by_cases hm : b.mass = 0
  · rw [if_pos hm]; exact h
  · rw [if_neg hm]
    dsimp only
    by_cases hl : (b.trail ++ [b.position]).length > TRAIL_LENGTH
    · rw [if_pos hl]
      simp only [List.length_tail, List.length_append, List.length_singleton]
      omega
    · rw [if_neg hl]
      exact Nat.not_lt.mp hl

/-- On a full trail of a moving body, the update is exactly FIFO: evict the
oldest entry, append the current position. -/
theorem Body.update_velocity_verlet_trail_full (b : Body) (hm : ¬ b.mass = 0)
    (hfull : b.trail.length = TRAIL_LENGTH) :
    b.update_velocity_verlet.trail = b.trail.tail ++ [b.position] := by
  unfold Body.update_velocity_verlet
  rw [if_neg hm]
  dsimp only
  rw [if_pos (by simp [hfull])]
  cases htr : b.trail with
  | nil => rw [htr] at hfull; simp [TRAIL_LENGTH] at hfull
  | cons a t => simp [htr]

/-- A successful tick keeps every trail within the capacity. -/
theorem step_trail_le {bs bs' : List Body} (h : step bs = some bs')
    (hb : ∀ i (h1 : i < bs.length), (bs.get ⟨i, h1⟩).trail.length ≤ TRAIL_LENGTH) :
    ∀ i (h2 : i < bs'.length), (bs'.get ⟨i, h2⟩).trail.length ≤ TRAIL_LENGTH := by
  unfold step at h
  obtain ⟨b1, hb1, h2⟩ := Option.bind_eq_some.mp h
  obtain ⟨b3, hb3, h4⟩ := Option.bind_eq_some.mp h2
  have hbs' : bs' = velPass b3 := (Option.some.inj h4).symm
  subst hbs'
  have hf1 := forcePassAux_forall₂ hb1
  have hf3 := forcePassAux_forall₂ hb3
  have hlen1 : b1.length = bs.length := hf1.length_eq.symm
  have hlen3 : b3.length = b1.length := by
    have := hf3.length_eq
    simpa [posPass] using this.symm
  intro i h2
  have hi3 : i < b3.length := by simpa [velPass] using h2
  have hi1 : i < b1.length := by omega
  have h1 : i < bs.length := by omega
  have hip : i < (posPass b1).length := by simp [posPass]; omega
  have g1 := forall₂_get hf1 i h1 hi1
  have g3 := forall₂_get hf3 i hip hi3
  have e1 := Body.calculate_force_some_fields g1
  have e3 := Body.calculate_force_some_fields g3
  have hpget : (posPass b1).get ⟨i, hip⟩ = (b1.get ⟨i, hi1⟩).update_position_verlet := by
    simp [posPass]
  have hvget : (velPass b3).get ⟨i, h2⟩ = (b3.get ⟨i, hi3⟩).update_velocity_verlet := by
    simp [velPass]
  rw [hpget] at e3
  rw [hvget]
  apply Body.update_velocity_verlet_trail_le
  rw [e3.2.2.2.1, (Body.update_position_verlet_fields _).2.2.2.2.1, e1.2.2.2.1]
  exact hb i h1

/-- Iterated form: the trail capacity is an invariant of the simulation. -/
theorem stepN_trail_le {n : ℕ} {bs bs' : List Body} (h : stepN n bs = some bs')
    (hb : ∀ i (h1 : i < bs.length), (bs.get ⟨i, h1⟩).trail.length ≤ TRAIL_LENGTH) :
    ∀ i (h2 : i < bs'.length), (bs'.get ⟨i, h2⟩).trail.length ≤ TRAIL_LENGTH := by
  induction n generalizing bs with
  | zero =>
    unfold stepN at h
    cases h
    exact hb
  | succ m ih =>
    unfold stepN at h
    obtain ⟨mid, hmid, hrest⟩ := Option.bind_eq_some.mp h
    exact ih hrest (step_trail_le hmid hb)

/-- The head of the drift body's trail after more than `TRAIL_LENGTH`
ticks: the entry appended at tick `n - TRAIL_LENGTH + 1`. -/
theorem driftTrail_head (n : ℕ) (hn : TRAIL_LENGTH < n) :
    (driftTrail n).head? = some ⟨(((n - TRAIL_LENGTH : ℕ) : ℝ) + 1) * DT, 0⟩ := by
  unfold driftTrail
  rw [List.head?_drop, List.getElem?_map, List.getElem?_range
    (by have hT : (100 : ℕ) ≤ TRAIL_LENGTH := by norm_num [TRAIL_LENGTH]
        omega)]
  simp

/-- C6 (amended): the trail length never exceeds `TRAIL_LENGTH`, and the
trail is FIFO — append the new position, evict the oldest when full.  The
off-by-one in the claim is corrected: after more than `TRAIL_LENGTH` ticks
the oldest retained position is the one appended `TRAIL_LENGTH - 1` ticks
ago (tick `n - TRAIL_LENGTH + 1` at tick `n`, i.e. the `TRAIL_LENGTH`-th
most recent append), not the one appended `TRAIL_LENGTH` ticks ago — that
one has just been evicted. -/
theorem C6_trail_bound_and_fifo :
    (∀ (n : ℕ) (bs bs' : List Body), stepN n bs = some bs' →
        (∀ i (h1 : i < bs.length), (bs.get ⟨i, h1⟩).trail.length ≤ TRAIL_LENGTH) →
        ∀ i (h2 : i < bs'.length), (bs'.get ⟨i, h2⟩).trail.length ≤ TRAIL_LENGTH) ∧
      (∀ b : Body, ¬ b.mass = 0 → b.trail.length = TRAIL_LENGTH →
        b.update_velocity_verlet.trail = b.trail.tail ++ [b.position]) ∧
      (∀ n : ℕ, TRAIL_LENGTH < n →
        (stepN n [driftBody 0]).map (fun l => l.map (fun b => b.trail.head?)) =
          some [some ⟨(((n - TRAIL_LENGTH : ℕ) : ℝ) + 1) * DT, 0⟩]) := by
  refine ⟨fun n bs bs' h hb => stepN_trail_le h hb,
    fun b hm hfull => Body.update_velocity_verlet_trail_full b hm hfull, ?_⟩
  intro n hn
  rw [drift_stepN n 0]
  simp only [Option.map_some', List.map_cons, List.map_nil, Nat.zero_add]
  rw [show (driftBody n).trail = driftTrail n from rfl, driftTrail_head n hn]

/-- C6 counterexample to the claim as stated: after 101 ticks of the drift
body (one more than `TRAIL_LENGTH = 100`), the oldest retained trail entry
is `(2·DT, 0)` — the position appended at tick 2 — whereas the position
appended exactly 100 ticks earlier, at tick 1, was `(DT, 0)`, which has just
been evicted. -/
theorem C6_counterexample :
    (stepN 1 [driftBody 0]).map (fun l => l.map Body.position) = some [⟨DT, 0⟩] ∧
      (stepN 101 [driftBody 0]).map (fun l => l.map (fun b => b.trail.head?)) =
        some [some ⟨2 * DT, 0⟩] ∧
      (⟨2 * DT, 0⟩ : Vec2) ≠ ⟨DT, 0⟩ := by
  refine ⟨?_, ?_, ?_⟩
  · rw [drift_stepN 1 0]
    simp [driftBody]
  · rw [drift_stepN 101 0]
    simp only [Option.map_some', List.map_cons, List.map_nil, Nat.zero_add]
    rw [show (driftBody 101).trail = driftTrail 101 from rfl,
      driftTrail_head 101 (by norm_num [TRAIL_LENGTH])]
    norm_num [TRAIL_LENGTH]
  · intro h
    have := congrArg Vec2.x h
    norm_num [DT] at this

/-- Witness for C6: the invariant applied to one concrete tick of the drift
body, and the FIFO head fact applied at 101 concrete ticks. -/
theorem C6_trail_bound_and_fifo_witness :
    (([driftBody 1] : List Body).get ⟨0, by simp⟩).trail.length ≤ TRAIL_LENGTH ∧
      (stepN 101 [driftBody 0]).map (fun l => l.map (fun b => b.trail.head?)) =
        some [some ⟨(((101 - TRAIL_LENGTH : ℕ) : ℝ) + 1) * DT, 0⟩] := by
  refine ⟨?_, C6_trail_bound_and_fifo.2.2 101 (by norm_num [TRAIL_LENGTH])⟩
  refine C6_trail_bound_and_fifo.1 1 [driftBody 0] [driftBody 1] (drift_stepN 1 0) ?_ 0 (by simp)
  intro i h1
  have hi : i = 0 := by simp at h1; omega
  subst hi
  simp [driftBody, driftTrail]

/-! ## The concrete two-body scenario of the specification -/

@[simp] theorem Vec2.eq_mk_iff {v : Vec2} {a b : ℝ} :
    v = ⟨a, b⟩ ↔ v.x = a ∧ v.y = b := by
  constructor
  · rintro rfl; exact ⟨rfl, rfl⟩
  · rintro ⟨h1, h2⟩; exact Vec2.ext_xy h1 h2

@[simp] theorem Vec2.mk_eq_iff {v : Vec2} {a b : ℝ} :
    (⟨a, b⟩ : Vec2) = v ↔ a = v.x ∧ b = v.y := by
  constructor
  · rintro rfl; exact ⟨rfl, rfl⟩
  · rintro ⟨h1, h2⟩; exact Vec2.ext_xy h1.symm h2.symm |>.symm

theorem sqrt_ten_thousand : Real.sqrt 10000 = 100 := by
  rw [show (10000 : ℝ) = 100 ^ 2 by norm_num]
  exact Real.sqrt_sq (by norm_num)

/-- The static body of mass `1e6` at the origin. -/
noncomputable def heavyBody : Body := bodyAt 1e6 ⟨0, 0⟩ 0 "Heavy"

/-- The light body of mass `1` at `(100, 0)`. -/
noncomputable def lightBody : Body := bodyAt 1 ⟨100, 0⟩ 1 "Light"

/-- The initial state of the concrete scenario of §8 of the specification. -/
noncomputable def c3init : List Body := [heavyBody, lightBody]

/-- After the first force pass of tick 1. -/
noncomputable def heavy1 : Body := { heavyBody with force := ⟨6674 / 1005, 0⟩ }

noncomputable def light1 : Body := { lightBody with force := ⟨-(6674 / 1005), 0⟩ }

/-- After the second force pass of tick 1. -/
noncomputable def heavy2 : Body :=
  { heavyBody with force := ⟨6674 / 1005, 0⟩, force_prev := ⟨6674 / 1005, 0⟩ }

noncomputable def light2 : Body :=
  { lightBody with force := ⟨-(6674 / 1005), 0⟩, force_prev := ⟨-(6674 / 1005), 0⟩ }

/-- After the full first tick. -/
noncomputable def heavyEnd : Body :=
  { heavy2 with velocity := ⟨3337 / 100500000000, 0⟩, trail := [⟨0, 0⟩] }

noncomputable def lightEnd : Body :=
  { light2 with velocity := ⟨-(3337 / 100500), 0⟩, trail := [⟨100, 0⟩] }

theorem calc_heavy_1 : heavyBody.calculate_force [heavyBody, lightBody] = some heavy1 := by
  unfold Body.calculate_force
  have hfold : heavyBody.forceFold [heavyBody, lightBody] ⟨0, 0⟩ =
      some ⟨6674 / 1005, 0⟩ := by
    simp only [Body.forceFold]
    norm_num [heavyBody, lightBody, bodyAt, Vec2.normalize, Vec2.length_squared,
      Vec2.length, SOFTENING, G, sqrt_ten_thousand]
  rw [hfold]
  simp [heavyBody, bodyAt, heavy1, Body.mk.injEq]

theorem calc_light_1 : lightBody.calculate_force [heavyBody, lightBody] = some light1 := by
  unfold Body.calculate_force
  have hfold : lightBody.forceFold [heavyBody, lightBody] ⟨0, 0⟩ =
      some ⟨-(6674 / 1005), 0⟩ := by
    simp only [Body.forceFold]
    norm_num [heavyBody, lightBody, bodyAt, Vec2.normalize, Vec2.length_squared,
      Vec2.length, SOFTENING, G, sqrt_ten_thousand]
  rw [hfold]
  simp [lightBody, bodyAt, light1, Body.mk.injEq]

theorem force_pass_1 : forcePass c3init = some [heavy1, light1] := by
  unfold forcePass c3init
  simp only [forcePassAux]
  rw [calc_heavy_1, calc_light_1]
  simp

/-- A body at rest with no saved force does not move in the position pass. -/
theorem Body.update_position_verlet_static (b : Body) (hm : ¬ b.mass = 0)
    (hv : b.velocity = ⟨0, 0⟩) (hfp : b.force_prev = ⟨0, 0⟩) :
    b.update_position_verlet = b := by
  unfold Body.update_position_verlet
  rw [if_neg hm]
  dsimp only
  have hpos : b.position + b.velocity * DT +
      ((0.5 : ℝ) * (b.force_prev / b.mass)) * DT ^ 2 = b.position := by
    rw [hv, hfp]
    exact Vec2.ext_xy (by simp) (by simp)
  rw [hpos]

theorem pos_pass_1 : posPass [heavy1, light1] = [heavy1, light1] := by
  unfold posPass
  simp only [List.map_cons, List.map_nil]
  rw [Body.update_position_verlet_static heavy1 (by norm_num [heavy1, heavyBody, bodyAt]) rfl rfl,
    Body.update_position_verlet_static light1 (by norm_num [light1, lightBody, bodyAt]) rfl rfl]

theorem calc_heavy_2 : heavy1.calculate_force [heavy1, light1] = some heavy2 := by
  unfold Body.calculate_force
  have hfold : heavy1.forceFold [heavy1, light1] ⟨0, 0⟩ =
      some ⟨6674 / 1005, 0⟩ := by
    simp only [Body.forceFold]
    norm_num [heavy1, light1, heavyBody, lightBody, bodyAt, Vec2.normalize,
      Vec2.length_squared, Vec2.length, SOFTENING, G, sqrt_ten_thousand]
  rw [hfold]
  simp [heavy1, heavy2, heavyBody, bodyAt, Body.mk.injEq]

theorem calc_light_2 : light1.calculate_force [heavy1, light1] = some light2 := by
  unfold Body.calculate_force
  have hfold : light1.forceFold [heavy1, light1] ⟨0, 0⟩ =
      some ⟨-(6674 / 1005), 0⟩ := by
    simp only [Body.forceFold]
    norm_num [heavy1, light1, heavyBody, lightBody, bodyAt, Vec2.normalize,
      Vec2.length_squared, Vec2.length, SOFTENING, G, sqrt_ten_thousand]
  rw [hfold]
  simp [light1, light2, lightBody, bodyAt, Body.mk.injEq]

theorem force_pass_2 : forcePass [heavy1, light1] = some [heavy2, light2] := by
  unfold forcePass
  simp only [forcePassAux]
  rw [calc_heavy_2, calc_light_2]
  simp

theorem vel_pass_1 : velPass [heavy2, light2] = [heavyEnd, lightEnd] := by
  unfold velPass
  simp only [List.map_cons, List.map_nil]
  have hH : heavy2.update_velocity_verlet = heavyEnd := by
    unfold Body.update_velocity_verlet
    rw [if_neg (by norm_num [heavy2, heavyBody, bodyAt])]
    dsimp only
    rw [if_neg (by norm_num [heavy2, heavyBody, bodyAt, TRAIL_LENGTH])]
    simp [heavy2, heavyEnd, heavyBody, bodyAt, Body.mk.injEq]
    norm_num [DT]
  have hL : light2.update_velocity_verlet = lightEnd := by
    unfold Body.update_velocity_verlet
    rw [if_neg (by norm_num [light2, lightBody, bodyAt])]
    dsimp only
    rw [if_neg (by norm_num [light2, lightBody, bodyAt, TRAIL_LENGTH])]
    simp [light2, lightEnd, lightBody, bodyAt, Body.mk.injEq]
    norm_num [DT]
  rw [hH, hL]

/-- The full first tick of the concrete scenario, in closed form. -/
theorem step_c3 : step c3init = some [heavyEnd, lightEnd] := by
  unfold step
  rw [force_pass_1, Option.some_bind, pos_pass_1, force_pass_2, Option.some_bind,
    vel_pass_1]

theorem calc_heavy_3 : heavyEnd.calculate_force [heavyEnd, lightEnd] = some heavyEnd := by
  unfold Body.calculate_force
  have hfold : heavyEnd.forceFold [heavyEnd, lightEnd] ⟨0, 0⟩ =
      some ⟨6674 / 1005, 0⟩ := by
    simp only [Body.forceFold]
    norm_num [heavyEnd, lightEnd, heavy2, light2, heavyBody, lightBody, bodyAt,
      Vec2.normalize, Vec2.length_squared, Vec2.length, SOFTENING, G, sqrt_ten_thousand]
  rw [hfold]
  simp [heavyEnd, heavy2, heavyBody, bodyAt, Body.mk.injEq]

theorem calc_light_3 : lightEnd.calculate_force [heavyEnd, lightEnd] = some lightEnd := by
  unfold Body.calculate_force
  have hfold : lightEnd.forceFold [heavyEnd, lightEnd] ⟨0, 0⟩ =
      some ⟨-(6674 / 1005), 0⟩ := by
    simp only [Body.forceFold]
    norm_num [heavyEnd, lightEnd, heavy2, light2, heavyBody, lightBody, bodyAt,
      Vec2.normalize, Vec2.length_squared, Vec2.length, SOFTENING, G, sqrt_ten_thousand]
  rw [hfold]
  simp [lightEnd, light2, lightBody, bodyAt, Body.mk.injEq]

theorem force_pass_3 : forcePass [heavyEnd, lightEnd] = some [heavyEnd, lightEnd] := by
  unfold forcePass
  simp only [forcePassAux]
  rw [calc_heavy_3, calc_light_3]
  simp

/-- Positions in the middle of tick 2, after its position pass. -/
noncomputable def heavyMid2 : Body :=
  { heavyEnd with position := ⟨3337 / 13400000000000, 0⟩ }

noncomputable def lightMid2 : Body :=
  { lightEnd with position := ⟨100 - 3337 / 13400000, 0⟩ }

theorem pos_pass_2 : posPass [heavyEnd, lightEnd] = [heavyMid2, lightMid2] := by
  unfold posPass
  simp only [List.map_cons, List.map_nil]
  have hH : heavyEnd.update_position_verlet = heavyMid2 := by
    unfold Body.update_position_verlet
    rw [if_neg (by norm_num [heavyEnd, heavy2, heavyBody, bodyAt])]
    dsimp only
    simp [heavyEnd, heavyMid2, heavy2, heavyBody, bodyAt, Body.mk.injEq]
    norm_num [DT]
  have hL : lightEnd.update_position_verlet = lightMid2 := by
    unfold Body.update_position_verlet
    rw [if_neg (by norm_num [lightEnd, light2, lightBody, bodyAt])]
    dsimp only
    simp [lightEnd, lightMid2, light2, lightBody, bodyAt, Body.mk.injEq]
    norm_num [DT]
  rw [hH, hL]

/-! ## Success of a force pass away from coincident positions -/

/-- The accumulation loop succeeds as long as no *other* body sits exactly
at the target's position (only that makes `normalize` raise). -/
theorem Body.forceFold_isSome (self : Body) :
    ∀ l : List Body, (∀ o ∈ l, o.id ≠ self.id → o.position ≠ self.position) →
      ∀ acc, ∃ v, self.forceFold l acc = some v := by
  intro l
  induction l with
  | nil => intro _ acc; exact ⟨acc, rfl⟩
  | cons o rest ih =>
    intro h acc
    simp only [Body.forceFold]
    by_cases hid : o.id = self.id
    · rw [if_pos hid]
      exact ih (fun x hx hne => h x (List.mem_cons_of_mem _ hx) hne) acc
    · rw [if_neg hid]
      by_cases hd : (o.position - self.position).length_squared + SOFTENING = 0
      · rw [if_pos hd]
        exact ih (fun x hx hne => h x (List.mem_cons_of_mem _ hx) hne) acc
      · rw [if_neg hd]
        have hneq : o.position ≠ self.position := h o (List.mem_cons_self _ _) hid
        have hz : ¬ (o.position - self.position).length_squared = 0 := by
          intro h0
          obtain ⟨hx, hy⟩ := (Vec2.length_squared_eq_zero_iff _).mp h0
          apply hneq
          refine Vec2.ext_xy ?_ ?_
          · simpa [sub_eq_zero] using hx
          · simpa [sub_eq_zero] using hy
        unfold Vec2.normalize
        rw [if_neg hz]
        exact ih (fun x hx hne => h x (List.mem_cons_of_mem _ hx) hne) _

theorem Body.calculate_force_isSome (self : Body) (l : List Body)
    (h : ∀ o ∈ l, o.id ≠ self.id → o.position ≠ self.position) :
    ∃ b', self.calculate_force l = some b' := by
  obtain ⟨v, hv⟩ := Body.forceFold_isSome self l h ⟨0, 0⟩
  refine ⟨{ self with force_prev := self.force, force := v }, ?_⟩
  unfold Body.calculate_force
  rw [hv]
  rfl

theorem forcePassAux_isSome {all : List Body} :
    ∀ bs : List Body,
      (∀ b ∈ bs, ∀ o ∈ all, o.id ≠ b.id → o.position ≠ b.position) →
      ∃ bs', forcePassAux all bs = some bs' := by
  intro bs
  induction bs with
  | nil => intro _; exact ⟨[], rfl⟩
  | cons b rest ih =>
    intro h
    obtain ⟨b', hb'⟩ := Body.calculate_force_isSome b all (h b (List.mem_cons_self _ _))
    obtain ⟨rest', hrest'⟩ := ih (fun x hx => h x (List.mem_cons_of_mem _ hx))
    refine ⟨b' :: rest', ?_⟩
    unfold forcePassAux
    rw [hb', Option.some_bind, hrest']
    rfl

/-! ## Claim C3 -/

/-- C3 counterexample to the claim as stated: in the concrete scenario
(masses `1e6` at the origin and `1` at `(100, 0)`, both at rest with zero
force fields), after exactly one tick the light body's `position.x` is still
exactly `100` — not strictly smaller.  With zero initial velocity and zero
initial `force_prev`, the position pass of the first tick is a no-op; the
attraction shows up in the velocity only. -/
theorem C3_counterexample :
    ((step c3init).bind (fun l => l[1]?)).map (fun b => b.position.x) = some 100 ∧
      ¬ ((100 : ℝ) < 100) := by
  constructor
  · rw [step_c3]
    simp [lightEnd, light2, lightBody, bodyAt]
  · norm_num

/-- C3 (amended): after exactly one tick of the concrete scenario the light
body's `velocity.x` is strictly negative, as claimed, but its `position.x`
is unchanged at exactly `100`; the position first drops strictly below `100`
after the second tick. -/
theorem C3_one_tick_attraction :
    ((step c3init).bind (fun l => l[1]?)).map (fun b => (b.position.x, b.velocity.x)) =
        some ((100 : ℝ), (-(3337 / 100500) : ℝ)) ∧
      (-(3337 / 100500) : ℝ) < 0 ∧
      ((stepN 2 c3init).bind (fun l => l[1]?)).map (fun b => b.position.x) =
        some (100 - 3337 / 13400000) ∧
      (100 - 3337 / 13400000 : ℝ) < 100 := by
  have hpos_ne1 : lightMid2.position ≠ heavyMid2.position := by
    intro h
    have hx := congrArg Vec2.x h
    simp [lightMid2, heavyMid2, lightEnd, heavyEnd, light2, heavy2, lightBody,
      heavyBody, bodyAt] at hx
    norm_num at hx
  have hpos_ne2 : heavyMid2.position ≠ lightMid2.position := fun h => hpos_ne1 h.symm
  have hcond : ∀ b ∈ [heavyMid2, lightMid2], ∀ o ∈ [heavyMid2, lightMid2],
      o.id ≠ b.id → o.position ≠ b.position := by
    intro b hb o ho hne
    simp only [List.mem_cons, List.not_mem_nil, or_false] at hb ho
    rcases hb with rfl | rfl <;> rcases ho with rfl | rfl
    · exact absurd rfl hne
    · exact hpos_ne1
    · exact hpos_ne2
    · exact absurd rfl hne
  obtain ⟨bs3, hbs3⟩ := forcePassAux_isSome [heavyMid2, lightMid2] hcond
  have hfp3 : forcePass [heavyMid2, lightMid2] = some bs3 := hbs3
  have hf := forcePassAux_forall₂ hbs3
  have hlen : bs3.length = 2 := by
    have := hf.length_eq
    simpa using this.symm
  have h2 : 1 < bs3.length := by omega
  have hg := forall₂_get hf 1 (by simp) h2
  have hposline : (bs3.get ⟨1, h2⟩).position = lightMid2.position :=
    (Body.calculate_force_some_fields hg).2.1
  refine ⟨?_, by norm_num, ?_, by norm_num⟩
  · rw [step_c3]
    simp [lightEnd, light2, lightBody, bodyAt]
  · simp only [stepN]
    rw [step_c3]
    simp only [Option.some_bind]
    unfold step
    rw [force_pass_3]
    simp only [Option.some_bind]
    rw [pos_pass_2, hfp3]
    simp only [Option.some_bind]
    have hget : (velPass bs3)[1]? = some ((bs3.get ⟨1, h2⟩).update_velocity_verlet) := by
      simp only [velPass, List.getElem?_map]
      rw [List.getElem?_eq_getElem h2]
      simp [List.get_eq_getElem]
    rw [hget]
    simp only [Option.map_some']
    rw [(Body.update_velocity_verlet_fields _).2.1, hposline]
    simp [lightMid2, lightEnd, light2, lightBody, bodyAt]

/-! ## Claim C4 -/

/-- Agreement on the fields the force computation reads: mass, position and
identity. -/
def kinEq (a b : Body) : Prop := a.mass = b.mass ∧ a.position = b.position ∧ a.id = b.id

/-- The force accumulation depends only on masses, positions and identities:
two kinematically equal configurations produce the same loop value. -/
theorem forceFold_congr {s s' : Body} (hm : s.mass = s'.mass)
    (hp : s.position = s'.position) (hi : s.id = s'.id) :
    ∀ {l l' : List Body}, List.Forall₂ kinEq l l' →
      ∀ acc, s.forceFold l acc = s'.forceFold l' acc := by
  intro l l' hll
  induction hll with
  | nil => intro acc; rfl
  | @cons a b tl tl' hab htl ih =>
    intro acc
    obtain ⟨hab1, hab2, hab3⟩ := hab
    simp only [Body.forceFold]
    rw [hab3, hi, hab2, hp, hab1, hm]
    by_cases hc : b.id = s'.id
    · rw [if_pos hc, if_pos hc]
      exact ih acc
    · rw [if_neg hc, if_neg hc]
      by_cases hd : (b.position - s'.position).length_squared + SOFTENING = 0
      · rw [if_pos hd, if_pos hd]
        exact ih acc
      · rw [if_neg hd, if_neg hd]
        cases (b.position - s'.position).normalize with
        | none => rfl
        | some n => exact ih _

theorem velPass_kinEq (l : List Body) : List.Forall₂ kinEq (velPass l) l := by
  induction l with
  | nil => exact List.Forall₂.nil
  | cons b rest ih =>
    refine List.Forall₂.cons ?_ ih
    have hf := Body.update_velocity_verlet_fields b
    exact ⟨hf.1, hf.2.1, hf.2.2.2.2⟩

theorem forcePassAux_kinEq {all bs bs' : List Body}
    (h : forcePassAux all bs = some bs') : List.Forall₂ kinEq bs' bs := by
  induction bs generalizing bs' with
  | nil =>
    unfold forcePassAux at h
    cases h
    exact List.Forall₂.nil
  | cons b rest ih =>
    unfold forcePassAux at h
    obtain ⟨b', hb', h2⟩ := Option.bind_eq_some.mp h
    obtain ⟨rest', hrest', rfl⟩ := Option.map_eq_some'.mp h2
    have hf := Body.calculate_force_some_fields hb'
    exact List.Forall₂.cons ⟨hf.1, hf.2.1, hf.2.2.2.2.1⟩ (ih hrest')

theorem forall₂_kinEq_trans :
    ∀ {l1 l2 l3 : List Body}, List.Forall₂ kinEq l1 l2 → List.Forall₂ kinEq l2 l3 →
      List.Forall₂ kinEq l1 l3 := by
  intro l1 l2 l3 h1
  induction h1 generalizing l3 with
  | nil =>
    intro h2
    cases h2
    exact List.Forall₂.nil
  | @cons a b tl tl' hab htl ih =>
    intro h2
    cases h2 with
    | cons hbc htl2 =>
      exact List.Forall₂.cons
        ⟨hab.1.trans hbc.1, hab.2.1.trans hbc.2.1, hab.2.2.trans hbc.2.2⟩ (ih htl2)

/-- C4 counterexample to the claim as stated at tick `k = 1`: in the
concrete two-body scenario the initial force fields are zero, yet
immediately before the velocity-update phase of the first tick the light
body's `force_prev` holds the force freshly computed from the initial
positions, `(-6674/1005, 0)`, not the zero force it had at the end of
"tick 0" (the initial state). -/
theorem C4_counterexample :
    (((forcePass c3init).bind (fun l => forcePass (posPass l))).bind
          (fun l => l[1]?)).map (fun b => b.force_prev) =
        some ⟨-(6674 / 1005), 0⟩ ∧
      (c3init.get ⟨1, by simp [c3init]⟩).force = ⟨0, 0⟩ ∧
      (⟨-(6674 / 1005), 0⟩ : Vec2) ≠ ⟨0, 0⟩ := by
  refine ⟨?_, ?_, ?_⟩
  · rw [force_pass_1]
    simp only [Option.some_bind]
    rw [pos_pass_1, force_pass_2]
    simp [light2, lightBody, bodyAt]
  · simp [c3init, lightBody, bodyAt]
  · intro h
    have hx := congrArg Vec2.x h
    norm_num at hx

/-- C4 (amended): from the second tick on the claim holds.  For any state
`bs` produced by a completed tick, if the next tick's first force pass
yields `bs1` and its second force pass (after the position pass) yields
`bs3`, then immediately before the velocity-update phase every body's
`force_prev` equals the `force` it had at the end of the previous tick.
At tick 1 `force_prev` instead holds the force freshly computed from the
initial positions, which generally differs from the initial force field. -/
theorem C4_force_prev_invariant (bsPrev bs bs1 bs3 : List Body)
    (hprev : step bsPrev = some bs)
    (h1 : forcePass bs = some bs1)
    (h3 : forcePass (posPass bs1) = some bs3) :
    ∀ i (ha : i < bs.length) (hb : i < bs3.length),
      (bs3.get ⟨i, hb⟩).force_prev = (bs.get ⟨i, ha⟩).force := by
  unfold step at hprev
  obtain ⟨b1p, hb1p, hp2⟩ := Option.bind_eq_some.mp hprev
  obtain ⟨b3p, hb3p, hp4⟩ := Option.bind_eq_some.mp hp2
  have hbs : bs = velPass b3p := (Option.some.inj hp4).symm
  subst hbs
  intro i ha hb
  -- lengths
  have hfprev := forcePassAux_forall₂ hb3p
  have hf1 := forcePassAux_forall₂ h1
  have hf3 := forcePassAux_forall₂ h3
  have hlen3p : b3p.length = (velPass b3p).length := by simp [velPass]
  have hlen1 : bs1.length = (velPass b3p).length := hf1.length_eq.symm
  have hlenp1 : (posPass bs1).length = bs1.length := by simp [posPass]
  have hi3p : i < b3p.length := by omega
  have hi1 : i < bs1.length := by omega
  have hip : i < (posPass bs1).length := by omega
  have hipp : i < (posPass b1p).length := by
    have := hfprev.length_eq
    omega
  -- the stored force at the end of the previous tick
  have hvget : (velPass b3p).get ⟨i, ha⟩ = (b3p.get ⟨i, hi3p⟩).update_velocity_verlet := by
    simp [velPass]
  have gprev := forall₂_get hfprev i hipp hi3p
  have eprev := Body.calculate_force_some_force gprev
  -- kinematic agreement between the post-tick state and the configuration
  -- the previous tick's second force pass read
  have hkin : List.Forall₂ kinEq (velPass b3p) (posPass b1p) :=
    forall₂_kinEq_trans (velPass_kinEq b3p) (forcePassAux_kinEq hb3p)
  have hkin_i := forall₂_get hkin i ha hipp
  -- hence the force pass of the current tick recomputes the same force
  have g1 := forall₂_get hf1 i ha hi1
  have e1force := Body.calculate_force_some_force g1
  have hsame : ((velPass b3p).get ⟨i, ha⟩).forceFold (velPass b3p) ⟨0, 0⟩ =
      ((posPass b1p).get ⟨i, hipp⟩).forceFold (posPass b1p) ⟨0, 0⟩ :=
    forceFold_congr hkin_i.1 hkin_i.2.1 hkin_i.2.2 hkin ⟨0, 0⟩
  -- the stored force equals the recomputed force
  have hforce_eq : (bs1.get ⟨i, hi1⟩).force = ((velPass b3p).get ⟨i, ha⟩).force := by
    have hstored : ((velPass b3p).get ⟨i, ha⟩).force = (b3p.get ⟨i, hi3p⟩).force := by
      rw [hvget]
      exact (Body.update_velocity_verlet_fields _).2.2.1
    have : ((velPass b3p).get ⟨i, ha⟩).forceFold (velPass b3p) ⟨0, 0⟩ =
        some ((velPass b3p).get ⟨i, ha⟩).force := by
      rw [hsame, eprev, hstored]
    have h1force := e1force
    rw [this] at h1force
    exact (Option.some.inj h1force).symm
  -- chase force_prev through the current tick's passes
  have g3 := forall₂_get hf3 i hip hb
  have e3 := Body.calculate_force_some_fields g3
  have hppget : (posPass bs1).get ⟨i, hip⟩ = (bs1.get ⟨i, hi1⟩).update_position_verlet := by
    simp [posPass]
  rw [e3.2.2.2.2.2.1, hppget, (Body.update_position_verlet_fields _).2.2.1, hforce_eq]

/-- Witness for C4: the invariant applied to a concrete second tick of the
drifting body. -/
theorem C4_force_prev_invariant_witness :
    (([driftMid 1] : List Body).get ⟨0, by simp⟩).force_prev =
      (([driftBody 1] : List Body).get ⟨0, by simp⟩).force := by
  have hfp3 : forcePass (posPass [driftBody 1]) = some [driftMid 1] := by
    rw [drift_posPass 1]
    exact drift_forcePass_mid 1
  exact C4_force_prev_invariant [driftBody 0] [driftBody 1] [driftBody 1] [driftMid 1]
    (drift_step 0) (drift_forcePass 1) hfp3 0 (by simp) (by simp)
